import Mathlib

/-!
# Intel Portal persistence engine — verification development

Shallow embedding of the persistence/synchronization engine of the
intel-portal repository:

* the Firestore + IndexedDB-overflow storage variant (the unnamed
  `storage.js` variant: `prepareForFirestore`, `restoreFromFirestore`,
  `saveReport`, `deleteReport`, `getReport`, `getBlobLocal`,
  `MAX_INLINE_SIZE`), modelled in namespace `Overflow`;
* the Firestore + Firebase Storage variant (`src/js/storage.js`:
  `prepareForFirestore`, `saveReport`, `deleteReport`), modelled in
  namespace `RemoteBlob`;
* the dashboard bootstrap / report-id assignment (`src/js/dashboard.js`),
  modelled in namespace `Dashboard`;
* the admin activity-feed subscription machinery (`src/js/admin.js`
  `subscribeToActivity`), modelled in namespace `Activity`.

JavaScript dynamic values that matter to the claims (the `dataUrl` field,
which the code tests with `attClone.dataUrl && attClone.dataUrl.length >
MAX_INLINE_SIZE`) are modelled by an explicit union type so that JS
truthiness and the `undefined > n` comparison are represented faithfully.
-/

namespace Overflow

/-- The value held by an attachment's `dataUrl` field, as a JS dynamic value:
`absent` is `null`/`undefined` (falsy), `str s` is a string (falsy iff empty,
with `.length` defined), and `stream` is a truthy object carrying payload
bytes but exposing no `.length` property (so `x.length > n` is
`undefined > n`, which is `false` in JS). -/
inductive PayloadHandle where
  | absent : PayloadHandle
  | str : String → PayloadHandle
  | stream : PayloadHandle
deriving DecidableEq, Repr

/-- JS truthiness of a `dataUrl` value. -/
def truthy : PayloadHandle → Bool
  | .absent => false
  | .str s => !s.isEmpty
  | .stream => true

/-- The JS comparison `dataUrl.length > n`: `.length` is defined only for
strings; for every other value `x.length` is `undefined` and `undefined > n`
evaluates to `false`. -/
def lengthGtBudget (h : PayloadHandle) (n : Nat) : Bool :=
  match h with
  | .str s => decide (n < s.length)
  | _ => false

/-- `MAX_INLINE_SIZE = 800000` — max size for an inline dataUrl. -/
def MAX_INLINE_SIZE : Nat := 800000

/-- The guard `attClone.dataUrl && attClone.dataUrl.length > MAX_INLINE_SIZE`
from `prepareForFirestore`. -/
def exceedsBudget (h : PayloadHandle) : Bool :=
  truthy h && lengthGtBudget h MAX_INLINE_SIZE

/-- The placement tier an attachment payload ends up in. -/
inductive Decision where
  | inlineTier : Decision
  | overflow : Decision
deriving DecidableEq, Repr

/-- The placement decision made by `prepareForFirestore` for one attachment
payload, with no remote blob store configured: the payload is moved to the
local overflow store exactly when the guard fires, otherwise it stays
embedded in the document. -/
def place (h : PayloadHandle) : Decision :=
  if exceedsBudget h then .overflow else .inlineTier

/-- An attachment as stored in this variant: `name`, `type`, `size` plus the
`dataUrl` payload field. -/
structure Attachment where
  name : String
  type : String
  size : Nat
  dataUrl : PayloadHandle
deriving DecidableEq, Repr

/-- A report document of the overflow variant (descriptive fields other than
the id do not influence the storage logic and are collapsed into `fields`). -/
structure Report where
  id : String
  fields : String
  attachments : List Attachment
deriving DecidableEq, Repr

/-- `report.id + "_att_" + i` — the deterministic overflow key. -/
def blobKey (rid : String) (i : Nat) : String :=
  rid ++ "_att_" ++ toString i

/-- The string content of a payload handle (used only after the
`exceedsBudget` guard, which only a string can pass). -/
def handleStr : PayloadHandle → String
  | .str s => s
  | _ => ""

/-- One attachment step of `prepareForFirestore`: if the attachment's
`dataUrl` passes the size guard, the payload is scheduled for
`saveBlobLocal(blobKey, dataUrl)` and the clone's `dataUrl` is replaced by
`"local:" + blobKey`; otherwise the attachment is left as-is.  Returns the
cleaned attachment together with the overflow put (key, payload) if any. -/
def prepareAtt (rid : String) (i : Nat) (a : Attachment) :
    Attachment × Option (String × String) :=
  if exceedsBudget a.dataUrl then
    ({ a with dataUrl := .str ("local:" ++ blobKey rid i) },
      some (blobKey rid i, handleStr a.dataUrl))
  else (a, none)

/-- `attachments.map(function (att, i) ...)` — apply `prepareAtt` to each
attachment together with its array index. -/
def prepareAtts (rid : String) (i : Nat) :
    List Attachment → List (Attachment × Option (String × String))
  | [] => []
  | a :: rest => prepareAtt rid i a :: prepareAtts rid (i + 1) rest

/-- `prepareForFirestore(report)`: clone the report, map `prepareAtt` over
the attachments (the original report object is not mutated — each attachment
is shallow-cloned and the clone's attachment array is a fresh `map` result),
and collect the scheduled `saveBlobLocal` puts. -/
def prepareForFirestore (r : Report) : Report × List (String × String) :=
  let prepared := prepareAtts r.id 0 r.attachments
  ({ r with attachments := prepared.map Prod.fst },
    prepared.filterMap Prod.snd)

/-- The cleaned document `prepareForFirestore` hands to the document write. -/
def preparedDoc (r : Report) : Report := (prepareForFirestore r).1

/-- The overflow puts scheduled by `prepareForFirestore`. -/
def blobPuts (r : Report) : List (String × String) := (prepareForFirestore r).2

end Overflow

section PlacementClaims

open Overflow

/-- **C1.** With no remote blob store configured, an attachment payload of
measured size at most `MAX_INLINE_SIZE = 800000` is placed inline (its
`dataUrl` stays embedded in the prepared document unchanged), and a payload
of size strictly greater than the budget is placed in overflow (the prepared
document carries `"local:" + blobKey` and the payload is scheduled for the
local overflow put). -/
theorem placement_inline_iff_within_budget (s rid : String) (i : Nat)
    (a : Attachment) (hurl : a.dataUrl = .str s) :
    (s.length ≤ MAX_INLINE_SIZE →
      place (.str s) = .inlineTier ∧ prepareAtt rid i a = (a, none)) ∧
    (MAX_INLINE_SIZE < s.length →
      place (.str s) = .overflow ∧
      prepareAtt rid i a =
        ({ a with dataUrl := .str ("local:" ++ blobKey rid i) },
          some (blobKey rid i, s))) := by
  constructor
  · intro hle
    have hguard : exceedsBudget (.str s) = false := by
      simp [exceedsBudget, truthy, lengthGtBudget, Nat.not_lt_of_le hle]
    refine ⟨by simp [place, hguard], ?_⟩
    simp [prepareAtt, hurl, hguard]
  · intro hgt
    have hne : s.isEmpty = false := by
      rw [Bool.eq_false_iff]
      intro hempty
      rw [String.isEmpty_iff] at hempty
      subst hempty
      simp [MAX_INLINE_SIZE, String.length] at hgt
    have hguard : exceedsBudget (.str s) = true := by
      simp [exceedsBudget, truthy, lengthGtBudget, hne, hgt]
    refine ⟨by simp [place, hguard], ?_⟩
    simp [prepareAtt, hurl, hguard, handleStr]

/-- A concrete 800001-character payload, one character over the budget. -/
def bigPayload : String := String.mk (List.replicate 800001 'a')

theorem bigPayload_length : bigPayload.length = 800001 := by
  show (String.mk (List.replicate 800001 'a')).length = 800001
  rw [String.length, List.length_replicate]

/-- Witness for C1: the empty payload (size 0 ≤ budget) is placed inline and
an 800001-byte payload is placed in overflow. -/
theorem placement_inline_iff_within_budget_witness :
    place (.str "") = Decision.inlineTier ∧
    place (.str bigPayload) = Decision.overflow := by
  have h0 := placement_inline_iff_within_budget "" "RPT-2024-0001" 0
    ⟨"a.txt", "text/plain", 0, .str ""⟩ rfl
  have h1 := placement_inline_iff_within_budget bigPayload "RPT-2024-0001" 0
    ⟨"a.bin", "application/pdf", 800001, .str bigPayload⟩ rfl
  refine ⟨(h0.1 (by simp [MAX_INLINE_SIZE, String.length])).1, ?_⟩
  exact (h1.2 (by rw [bigPayload_length]; simp [MAX_INLINE_SIZE])).1

end PlacementClaims

section UnknownSizeClaim

open Overflow

/-- A payload handle with a measurable length: only a string exposes
`.length` in this code. -/
def Overflow.hasMeasurableLength : PayloadHandle → Bool
  | .str _ => true
  | _ => false

/-- **C9 (counterexample).** The claim states that an attachment whose
payload size is unknown is treated as exceeding the budget (decision
overflow, never inline).  On the code, a truthy payload value with no
measurable `.length` (`stream`) makes the guard
`dataUrl && dataUrl.length > MAX_INLINE_SIZE` evaluate `undefined > 800000`,
which is `false`, so the attachment is left inline — refuting the claim. -/
theorem unknown_size_payload_not_overflow :
    place PayloadHandle.stream = Decision.inlineTier := rfl

/-- **C9 (amended).** A payload whose size cannot be measured (no `.length`
property, or no payload value at all) is never moved to overflow by
`prepareForFirestore`: the placement decision for it is inline (left as-is
in the document); only a payload with measured length strictly greater than
the budget is placed in overflow. -/
theorem unmeasured_payload_placed_inline (h : PayloadHandle)
    (hm : Overflow.hasMeasurableLength h = false) :
    place h = Decision.inlineTier := by
  cases h with
  | absent => rfl
  | stream => rfl
  | str s => simp [Overflow.hasMeasurableLength] at hm

/-- Witness for the amended C9 at the `absent` payload value. -/
theorem unmeasured_payload_placed_inline_witness :
    place PayloadHandle.absent = Decision.inlineTier :=
  unmeasured_payload_placed_inline PayloadHandle.absent rfl

end UnknownSizeClaim

namespace Overflow

/-- A write issued against a storage tier by `saveReport`: an overflow
`saveBlobLocal(key, payload)` put or the Firestore `set(id, doc)`. -/
inductive StoreOp where
  | putBlob (key : String) (payload : String) : StoreOp
  | setDoc (id : String) (doc : Report) : StoreOp
deriving DecidableEq, Repr

/-- Whether an operation is an overflow-tier put. -/
def StoreOp.isPutBlob : StoreOp → Bool
  | .putBlob _ _ => true
  | _ => false

/-- The sequence of store writes `saveReport(report)` issues, in program
order: `prepareForFirestore` first runs every scheduled `saveBlobLocal` put
(awaited via `Promise.all`), and only then is the single document
`set(report.id, cleaned)` issued. -/
def saveReportOps (r : Report) : List StoreOp :=
  (blobPuts r).map (fun p => .putBlob p.1 p.2) ++ [.setDoc r.id (preparedDoc r)]

/-- Pointwise update of a key-value map. -/
def update (f : String → Option α) (key : String) (v : Option α) :
    String → Option α :=
  fun q => if q = key then v else f q

/-- Apply a list of overflow puts to the blob map, in order. -/
def putAll (blobs : String → Option String) :
    List (String × String) → (String → Option String)
  | [] => blobs
  | (k, v) :: rest => putAll (update blobs k (some v)) rest

/-- The combined state of the two stores this variant writes to: the remote
document store (`reports` collection) and the local overflow blob store
(`intel_portal_blobs`). -/
structure DB where
  docs : String → Option Report
  blobs : String → Option String

/-- The effect of a completed `saveReport(report)` on the two stores: the
scheduled overflow puts are applied and the cleaned document replaces the
document at `report.id`. -/
def applySaveReport (r : Report) (db : DB) : DB :=
  { docs := update db.docs r.id (some (preparedDoc r)),
    blobs := putAll db.blobs (blobPuts r) }

/-- The last value bound to `k` by a put list, if any. -/
def lastVal : List (String × String) → String → Option String
  | [], _ => none
  | (k', v) :: rest, k =>
    match lastVal rest k with
    | some w => some w
    | none => if k = k' then some v else none

theorem putAll_apply (l : List (String × String))
    (f : String → Option String) (k : String) :
    putAll f l k = match lastVal l k with
      | some v => some v
      | none => f k := by
  induction l generalizing f with
  | nil => rfl
  | cons p rest ih =>
    obtain ⟨k', v⟩ := p
    show putAll (update f k' (some v)) rest k = _
    rw [ih]
    rcases hrest : lastVal rest k with _ | w
    · show update f k' (some v) k = _
      show (if k = k' then some v else f k) = _
      simp only [lastVal, hrest]
      by_cases hk : k = k' <;> simp [hk]
    · simp only [lastVal, hrest]

theorem putAll_idem (f : String → Option String)
    (l : List (String × String)) :
    putAll (putAll f l) l = putAll f l := by
  funext k
  rw [putAll_apply, putAll_apply]
  rcases lastVal l k with _ | v <;> rfl

theorem update_idem (f : String → Option α) (key : String) (v : Option α) :
    update (update f key v) key v = update f key v := by
  funext q
  unfold update
  by_cases hq : q = key <;> simp [hq]

end Overflow

namespace RemoteBlob

/-- JS truthiness of an optional string field (`null`/missing and the empty
string are falsy). -/
def truthyS : Option String → Bool
  | none => false
  | some s => !s.isEmpty

/-- An attachment of the Firebase Storage variant: a raw `file` handle (a
`File` object, truthy exactly when present), a legacy inline `dataUrl`, and
the remote locator pair `storageUrl`/`storagePath`. -/
structure Attachment where
  name : String
  type : String
  size : Nat
  file : Option String
  dataUrl : Option String
  storageUrl : Option String
  storagePath : Option String
deriving DecidableEq, Repr

/-- A report document of the Firebase Storage variant. -/
structure Report where
  id : String
  fields : String
  attachments : List Attachment
deriving DecidableEq, Repr

/-- `"attachments/" + reportId + "/" + fileName` — the storage path chosen by
`uploadAttachment`. -/
def pathFor (rid name : String) : String :=
  "attachments/" ++ rid ++ "/" ++ name

/-- The download URL returned for an uploaded path (modelled
deterministically from the path; its exact content is opaque to the engine). -/
def urlFor (path : String) : String := "download:" ++ path

/-- One attachment step of this variant's `prepareForFirestore`:
a raw `file` is uploaded and replaced by `storageUrl`/`storagePath` (the
`file` and `dataUrl` properties are deleted); a legacy truthy `dataUrl`
without a truthy `storageUrl` is converted to a Blob, uploaded the same way
and the `dataUrl` deleted; otherwise the attachment is left as-is apart from
deleting `file` and `dataUrl`.  Returns the cleaned attachment and the
uploaded storage path, if an upload was issued.  NOTE: the code writes each
cleaned attachment back with `clone.attachments[i] = attClone`, and
`Object.assign({}, report)` shares the `attachments` array with the original
report, so after the call the in-memory report carries exactly these cleaned
attachments. -/
def prepareAtt (rid : String) (a : Attachment) : Attachment × Option String :=
  if a.file.isSome then
    let p := pathFor rid a.name
    ({ a with storageUrl := some (urlFor p), storagePath := some p,
              file := none, dataUrl := none }, some p)
  else if truthyS a.dataUrl && !truthyS a.storageUrl then
    let p := pathFor rid a.name
    ({ a with storageUrl := some (urlFor p), storagePath := some p,
              dataUrl := none }, some p)
  else
    ({ a with file := none, dataUrl := none }, none)

/-- This variant's `prepareForFirestore(report)`: upload every attachment
that needs it and return the cleaned report together with the list of
storage paths that were uploaded.  Because of the `clone.attachments[i]`
aliasing noted at `prepareAtt`, the cleaned report is also the state of the
in-memory report after the call. -/
def prepareForFirestore (r : Report) : Report × List String :=
  let prepared := r.attachments.map (prepareAtt r.id)
  ({ r with attachments := prepared.map Prod.fst },
    prepared.filterMap Prod.snd)

/-- `saveReport(report)`: run `prepareForFirestore`, then
`set(report.id, cleaned)`; resolves with the cleaned report. -/
def saveReport (r : Report) : Report × List String := prepareForFirestore r

/-- A write issued against a storage tier by this variant's `saveReport`. -/
inductive StoreOp where
  | uploadBlob (path : String) : StoreOp
  | setDoc (id : String) (doc : Report) : StoreOp
deriving DecidableEq, Repr

/-- Whether an operation is a remote blob upload. -/
def StoreOp.isUpload : StoreOp → Bool
  | .uploadBlob _ => true
  | _ => false

/-- The sequence of store writes this variant's `saveReport(report)` issues,
in program order: every `uploadAttachment` put completes under the
`Promise.all` before the single document `set` is issued. -/
def saveReportOps (r : Report) : List StoreOp :=
  (saveReport r).2.map .uploadBlob ++ [.setDoc r.id (saveReport r).1]

end RemoteBlob

section OrderingClaim

/-- **C2.** For every report saved via `save(report)`, in both storage
variants, every blob-tier write required by the placement decision (local
overflow `saveBlobLocal` put, or remote `uploadAttachment` put) precedes the
document write in the issued operation sequence: the document
`set(report.id, cleaned)` is the last operation and everything before it is
a blob-tier write, so the stored document never references a tier write that
has not completed. -/
theorem tier_writes_precede_document_write (r : Overflow.Report)
    (rr : RemoteBlob.Report) :
    (Overflow.saveReportOps r).dropLast.all Overflow.StoreOp.isPutBlob = true ∧
    (Overflow.saveReportOps r).getLast? =
      some (.setDoc r.id (Overflow.preparedDoc r)) ∧
    (RemoteBlob.saveReportOps rr).dropLast.all RemoteBlob.StoreOp.isUpload = true ∧
    (RemoteBlob.saveReportOps rr).getLast? =
      some (.setDoc rr.id (RemoteBlob.saveReport rr).1) := by
  refine ⟨?_, ?_, ?_, ?_⟩
  · rw [Overflow.saveReportOps, List.dropLast_concat]
    exact List.all_eq_true.mpr fun p hp => by
      obtain ⟨q, _, rfl⟩ := List.mem_map.mp hp
      rfl
  · rw [Overflow.saveReportOps, List.getLast?_concat]
  · rw [RemoteBlob.saveReportOps, List.dropLast_concat]
    exact List.all_eq_true.mpr fun p hp => by
      obtain ⟨q, _, rfl⟩ := List.mem_map.mp hp
      rfl
  · rw [RemoteBlob.saveReportOps, List.getLast?_concat]

end OrderingClaim

section IdempotenceClaim

/-- A concrete attachment one byte over the inline budget. -/
def bigAtt : Overflow.Attachment :=
  ⟨"scan.pdf", "application/pdf", 800001, .str bigPayload⟩

/-- A concrete report with a single over-budget attachment. -/
def rBig : Overflow.Report := ⟨"RPT-2024-0001", "subject", [bigAtt]⟩

theorem exceedsBudget_bigPayload :
    Overflow.exceedsBudget (.str bigPayload) = true := by
  have hlen : Overflow.MAX_INLINE_SIZE < bigPayload.length := by
    rw [bigPayload_length]; norm_num [Overflow.MAX_INLINE_SIZE]
  have hne : bigPayload.isEmpty = false := by
    rw [Bool.eq_false_iff]
    intro he
    rw [String.isEmpty_iff] at he
    have hl := bigPayload_length
    rw [he] at hl
    simp [String.length] at hl
  show (!bigPayload.isEmpty &&
    decide (Overflow.MAX_INLINE_SIZE < bigPayload.length)) = true
  rw [hne, decide_eq_true hlen]
  rfl

theorem blobPuts_rBig :
    Overflow.blobPuts rBig = [(Overflow.blobKey "RPT-2024-0001" 0, bigPayload)] := by
  simp [Overflow.blobPuts, Overflow.prepareForFirestore, rBig, bigAtt,
    Overflow.prepareAtts, Overflow.prepareAtt, exceedsBudget_bigPayload,
    Overflow.handleStr]

/-- **C3 (counterexample).** The claim asserts that across two consecutive
`save(report)` calls with no intervening mutation, the blob-tier put is
invoked exactly once per attachment.  In the overflow variant,
`prepareForFirestore` clones the report and its attachments and never writes
the `local:` locator back into the caller's report object, so the second
`save` re-schedules `saveBlobLocal` for the same attachment: for the
concrete report `rBig` with exactly one over-budget attachment, the two
calls together invoke the overflow put twice, not once. -/
theorem save_twice_reinvokes_overflow_put :
    ((Overflow.saveReportOps rBig) ++ (Overflow.saveReportOps rBig)).countP
      (fun op => op.isPutBlob) = 2 := by
  rw [List.countP_append]
  have h1 : (Overflow.saveReportOps rBig).countP (fun op => op.isPutBlob) = 1 := by
    rw [Overflow.saveReportOps, blobPuts_rBig]
    rfl
  rw [h1]

/-- Each attachment produced by the remote variant's `prepareForFirestore`
is a fixed point of `prepareAtt`: its `file` and `dataUrl` were deleted and
it carries a `storageUrl`, so a later call leaves it as-is and uploads
nothing. -/
theorem remote_prepareAtt_cleaned (rid : String) (a : RemoteBlob.Attachment) :
    RemoteBlob.prepareAtt rid (RemoteBlob.prepareAtt rid a).1 =
      ((RemoteBlob.prepareAtt rid a).1, none) := by
  obtain ⟨n, t, sz, f, d, su, sp⟩ := a
  cases f with
  | some fv =>
    have h1 : RemoteBlob.prepareAtt rid ⟨n, t, sz, some fv, d, su, sp⟩ =
        (⟨n, t, sz, none, none,
          some (RemoteBlob.urlFor (RemoteBlob.pathFor rid n)),
          some (RemoteBlob.pathFor rid n)⟩,
          some (RemoteBlob.pathFor rid n)) := by
      rw [RemoteBlob.prepareAtt]
      rfl
    rw [h1]
    rw [RemoteBlob.prepareAtt]
    rfl
  | none =>
    by_cases hd : (RemoteBlob.truthyS d && !RemoteBlob.truthyS su) = true
    · have h1 : RemoteBlob.prepareAtt rid ⟨n, t, sz, none, d, su, sp⟩ =
          (⟨n, t, sz, none, none,
            some (RemoteBlob.urlFor (RemoteBlob.pathFor rid n)),
            some (RemoteBlob.pathFor rid n)⟩,
            some (RemoteBlob.pathFor rid n)) := by
        rw [RemoteBlob.prepareAtt]
        simp only [Option.isSome_none, Bool.false_eq_true, if_false, hd, if_true]
      rw [h1]
      rw [RemoteBlob.prepareAtt]
      rfl
    · have h1 : RemoteBlob.prepareAtt rid ⟨n, t, sz, none, d, su, sp⟩ =
          (⟨n, t, sz, none, none, su, sp⟩, none) := by
        rw [RemoteBlob.prepareAtt]
        simp only [Option.isSome_none, Bool.false_eq_true, if_false,
          if_neg hd]
      rw [h1]
      rw [RemoteBlob.prepareAtt]
      rfl

theorem remote_prepare_list_cleaned (rid : String)
    (l : List RemoteBlob.Attachment) :
    (((l.map (RemoteBlob.prepareAtt rid)).map Prod.fst).map
        (RemoteBlob.prepareAtt rid)).map Prod.fst =
      (l.map (RemoteBlob.prepareAtt rid)).map Prod.fst ∧
    (((l.map (RemoteBlob.prepareAtt rid)).map Prod.fst).map
        (RemoteBlob.prepareAtt rid)).filterMap Prod.snd = [] := by
  induction l with
  | nil => simp
  | cons a rest ih =>
    refine ⟨?_, ?_⟩ <;>
      simp [remote_prepareAtt_cleaned rid a, ih.1, ih.2] <;>
      (intro b _hb; rw [remote_prepareAtt_cleaned rid b])

/-- **C3 (amended).** Calling `save(report)` twice in a row with no
intervening mutation yields the same stored document after the second call,
and leaves both storage tiers in the same state.  In the remote-blob-store
variant the blob `put` is additionally invoked exactly once per attachment
across both calls (the second call finds every attachment already carrying a
`storageUrl` locator and uploads nothing).  In the local-overflow variant,
however, the second call re-invokes the overflow put with the same
deterministic key and the same payload — an idempotent overwrite that leaves
the overflow store unchanged but is a second invocation, not a no-op. -/
theorem save_idempotent_stored_state (r : Overflow.Report) (db : Overflow.DB)
    (rr : RemoteBlob.Report) :
    Overflow.applySaveReport r (Overflow.applySaveReport r db) =
      Overflow.applySaveReport r db ∧
    (RemoteBlob.saveReport (RemoteBlob.saveReport rr).1).1 =
      (RemoteBlob.saveReport rr).1 ∧
    (RemoteBlob.saveReport (RemoteBlob.saveReport rr).1).2 = [] := by
  refine ⟨?_, ?_, ?_⟩
  · show Overflow.DB.mk _ _ = Overflow.DB.mk _ _
    rw [Overflow.DB.mk.injEq]
    exact ⟨Overflow.update_idem db.docs r.id (some (Overflow.preparedDoc r)),
      Overflow.putAll_idem db.blobs (Overflow.blobPuts r)⟩
  · show RemoteBlob.Report.mk _ _ _ = RemoteBlob.Report.mk _ _ _
    rw [RemoteBlob.Report.mk.injEq]
    exact ⟨rfl, rfl, (remote_prepare_list_cleaned rr.id rr.attachments).1⟩
  · exact (remote_prepare_list_cleaned rr.id rr.attachments).2

end IdempotenceClaim

namespace Overflow

/-- The overflow variant's `deleteReport(id)`: it issues exactly
`fbDb.collection(COLLECTION).doc(id).delete()` — only the remote document is
removed; nothing touches the local overflow store. -/
def deleteReport (id : String) (db : DB) : DB :=
  { db with docs := update db.docs id none }

end Overflow

namespace RemoteBlob

/-- The combined state the Firebase Storage variant writes to: the remote
document store and the remote blob store keyed by storage path. -/
structure DB where
  docs : String → Option Report
  blobs : String → Option String

/-- Issue `deleteAttachment(path)` for each path in order (`delete` on a
nonexistent path is a no-op, not an error). -/
def deletePaths (blobs : String → Option String) :
    List String → (String → Option String)
  | [] => blobs
  | p :: rest => deletePaths (Overflow.update blobs p none) rest

/-- The storage paths a stored document references: each attachment with a
truthy `storagePath` (`if (att.storagePath)`). -/
def referencedPaths (r : Report) : List String :=
  r.attachments.filterMap fun a =>
    if truthyS a.storagePath then a.storagePath else none

/-- This variant's `deleteReport(id)`: read the document; if it exists,
collect a `deleteAttachment` for every referenced storage path; always also
delete the document; await all of them (`Promise.all`). -/
def deleteReport (id : String) (db : DB) : DB :=
  match db.docs id with
  | none => { db with docs := Overflow.update db.docs id none }
  | some d =>
      { docs := Overflow.update db.docs id none,
        blobs := deletePaths db.blobs (referencedPaths d) }

theorem deletePaths_apply (ps : List String)
    (blobs : String → Option String) (q : String) :
    deletePaths blobs ps q = if q ∈ ps then none else blobs q := by
  induction ps generalizing blobs with
  | nil => simp [deletePaths]
  | cons p rest ih =>
    show deletePaths (Overflow.update blobs p none) rest q = _
    rw [ih]
    by_cases hq : q ∈ rest
    · simp [hq]
    · by_cases hp : q = p <;> simp [Overflow.update, hq, hp]

end RemoteBlob

section DeleteClaim

/-- A stored document of the overflow variant whose attachment payload lives
in the local overflow store under key `RPT-2024-0001_att_0`. -/
def exOverflowDoc : Overflow.Report :=
  ⟨"RPT-2024-0001", "subject",
    [⟨"scan.pdf", "application/pdf", 800001,
      .str "local:RPT-2024-0001_att_0"⟩]⟩

/-- A store state holding `exOverflowDoc` and its overflow payload. -/
def exOverflowDB : Overflow.DB :=
  { docs := Overflow.update (fun _ => none) "RPT-2024-0001" (some exOverflowDoc),
    blobs := Overflow.update (fun _ => none) "RPT-2024-0001_att_0"
      (some "PAYLOAD") }

/-- **C4 (counterexample).** The claim asserts that `delete(id)` removes
every blob-tier payload the stored document references, including local
overflow entries.  In the overflow variant, `deleteReport(id)` only deletes
the Firestore document: deleting `RPT-2024-0001`, whose stored document
references overflow key `RPT-2024-0001_att_0`, leaves that overflow entry in
the local blob store. -/
theorem delete_leaves_overflow_entry :
    (Overflow.deleteReport "RPT-2024-0001" exOverflowDB).docs
       "RPT-2024-0001" = none ∧
    (Overflow.deleteReport "RPT-2024-0001" exOverflowDB).blobs
       "RPT-2024-0001_att_0" = some "PAYLOAD" := by
  constructor
  · simp [Overflow.deleteReport, Overflow.update]
  · show exOverflowDB.blobs "RPT-2024-0001_att_0" = some "PAYLOAD"
    simp [exOverflowDB, Overflow.update]

/-- **C4 (amended).** `delete(id)` always removes the remote document.  In
the remote-blob-store variant it also reads the document first and deletes
every remote blob object the stored document references before reporting
success.  Local overflow entries, however, are not removed: the overflow
variant's delete leaves the local blob store untouched. -/
theorem delete_removes_document_and_remote_blobs
    (db3 : Overflow.DB) (id3 : String) (dbR : RemoteBlob.DB) (idR : String)
    (d : RemoteBlob.Report) (p : String) :
    (Overflow.deleteReport id3 db3).docs id3 = none ∧
    (Overflow.deleteReport id3 db3).blobs = db3.blobs ∧
    (RemoteBlob.deleteReport idR dbR).docs idR = none ∧
    (dbR.docs idR = some d → p ∈ RemoteBlob.referencedPaths d →
      (RemoteBlob.deleteReport idR dbR).blobs p = none) := by
  refine ⟨?_, rfl, ?_, ?_⟩
  · simp [Overflow.deleteReport, Overflow.update]
  · cases hd : dbR.docs idR <;>
      simp [RemoteBlob.deleteReport, hd, Overflow.update]
  · intro hdoc hp
    have : RemoteBlob.deleteReport idR dbR =
        { docs := Overflow.update dbR.docs idR none,
          blobs := RemoteBlob.deletePaths dbR.blobs
            (RemoteBlob.referencedPaths d) } := by
      rw [RemoteBlob.deleteReport, hdoc]
    rw [this]
    show RemoteBlob.deletePaths dbR.blobs (RemoteBlob.referencedPaths d) p = none
    rw [RemoteBlob.deletePaths_apply, if_pos hp]

/-- A stored document of the remote variant referencing one storage path. -/
def exRemoteDoc : RemoteBlob.Report :=
  ⟨"RPT-2024-0002", "subject",
    [⟨"scan.pdf", "application/pdf", 5, none, none,
      some "download:attachments/RPT-2024-0002/scan.pdf",
      some "attachments/RPT-2024-0002/scan.pdf"⟩]⟩

/-- A store state holding `exRemoteDoc` and its remote blob. -/
def exRemoteDB : RemoteBlob.DB :=
  { docs := Overflow.update (fun _ => none) "RPT-2024-0002" (some exRemoteDoc),
    blobs := Overflow.update (fun _ => none)
      "attachments/RPT-2024-0002/scan.pdf" (some "BYTES") }

/-- Witness for the amended C4: deleting `RPT-2024-0002` in the remote
variant removes both the document and the referenced remote blob. -/
theorem delete_removes_document_and_remote_blobs_witness :
    (RemoteBlob.deleteReport "RPT-2024-0002" exRemoteDB).docs
       "RPT-2024-0002" = none ∧
    (RemoteBlob.deleteReport "RPT-2024-0002" exRemoteDB).blobs
       "attachments/RPT-2024-0002/scan.pdf" = none := by
  have h := delete_removes_document_and_remote_blobs exOverflowDB "RPT-2024-0001"
    exRemoteDB "RPT-2024-0002" exRemoteDoc "attachments/RPT-2024-0002/scan.pdf"
  refine ⟨h.2.2.1, h.2.2.2 ?_ ?_⟩
  · simp [exRemoteDB, Overflow.update]
  · simp [RemoteBlob.referencedPaths, exRemoteDoc, RemoteBlob.truthyS]
    decide

end DeleteClaim

namespace Activity

/-- The filter controls read by `subscribeToActivity`: the user, action and
date `<select>`/`<input>` values (the empty string is the "no filter"
state, falsy in JS). -/
structure Filter where
  user : String
  action : String
  date : String
deriving DecidableEq, Repr

/-- The Firestore query built by `subscribeToActivity` from the current
filter values: equality `where` clauses for a non-empty user and/or action,
always ordered by timestamp descending and limited to 50 (the date filter is
applied client-side inside the snapshot callback, not in the query). -/
structure Query where
  whereUser : Option String
  whereAction : Option String
  orderByTimestampDesc : Bool
  limitCount : Nat
deriving DecidableEq, Repr

/-- The four-way query construction of `subscribeToActivity`. -/
def buildQuery (f : Filter) : Query :=
  if !f.user.isEmpty && !f.action.isEmpty then
    ⟨some f.user, some f.action, true, 50⟩
  else if !f.user.isEmpty then ⟨some f.user, none, true, 50⟩
  else if !f.action.isEmpty then ⟨none, some f.action, true, 50⟩
  else ⟨none, none, true, 50⟩

/-- One `onSnapshot` registration: the filter and query it was opened with,
and whether its listener is still attached (`active := false` once its
unsubscribe function has been called). -/
structure Subscription where
  filter : Filter
  query : Query
  active : Bool
deriving DecidableEq, Repr

/-- The feed component's state: every subscription ever opened (in order)
and `currentUnsubscribe` — the index of the subscription whose unsubscribe
function the module-level variable currently holds (`none` initially). -/
structure FeedState where
  subs : List Subscription
  currentUnsubscribe : Option Nat
deriving Repr

/-- State at page load: no subscription yet, `currentUnsubscribe = null`. -/
def initialFeed : FeedState := ⟨[], none⟩

/-- Call the unsubscribe function of the subscription at index `i`. -/
def unsubscribeAt (subs : List Subscription) (i : Nat) : List Subscription :=
  match subs.get? i with
  | some s => subs.set i { s with active := false }
  | none => subs

/-- `subscribeToActivity()` with current filter values `f`: first call the
previous listener's unsubscribe if one exists, then open a new `onSnapshot`
subscription for the query built from `f` and remember its unsubscribe
function. -/
def subscribeToActivity (f : Filter) (st : FeedState) : FeedState :=
  let subs1 :=
    match st.currentUnsubscribe with
    | some i => unsubscribeAt st.subs i
    | none => st.subs
  { subs := subs1 ++ [⟨f, buildQuery f, true⟩],
    currentUnsubscribe := some subs1.length }

/-- Apply a sequence of filter changes (initial subscription and every
`apply-filters` click), oldest first. -/
def applyFilters (fs : List Filter) (st : FeedState) : FeedState :=
  fs.foldl (fun s f => subscribeToActivity f s) st

/-- A subscription record for `f` whose listener has been detached. -/
def inactiveSub (f : Filter) : Subscription := ⟨f, buildQuery f, false⟩

theorem set_append_last (xs : List α) (x y : α) :
    (xs ++ [x]).set xs.length y = xs ++ [y] := by
  induction xs with
  | nil => rfl
  | cons a rest ih => simp [List.set, ih]

theorem get?_append_last (xs : List α) (x : α) :
    (xs ++ [x]).get? xs.length = some x := by
  induction xs with
  | nil => rfl
  | cons a rest ih => simp [ih]

/-- The active subscription record opened for filter `f`. -/
def activeSub (f : Filter) : Subscription := ⟨f, buildQuery f, true⟩

/-- After any nonempty sequence of filter changes from the initial state,
the state consists of an inactive subscription per superseded filter, in
order, followed by a single active subscription for the last filter, which
is the one `currentUnsubscribe` points at. -/
theorem applyFilters_shape (l : List Filter) (f : Filter) :
    applyFilters (l ++ [f]) initialFeed =
      ⟨l.map inactiveSub ++ [activeSub f], some l.length⟩ := by
  induction l using List.reverseRecOn generalizing f with
  | nil => rfl
  | append_singleton l g ih =>
    have hstep : applyFilters ((l ++ [g]) ++ [f]) initialFeed =
        subscribeToActivity f (applyFilters (l ++ [g]) initialFeed) := by
      rw [applyFilters, applyFilters, List.foldl_append]
      rfl
    rw [hstep, ih g]
    rw [subscribeToActivity]
    have hunsub :
        unsubscribeAt (l.map inactiveSub ++ [activeSub g])
            l.length = (l ++ [g]).map inactiveSub := by
      rw [unsubscribeAt]
      have hlen : (l.map inactiveSub).length = l.length :=
        List.length_map _ _
      rw [← hlen, get?_append_last]
      show (l.map inactiveSub ++ [activeSub g]).set
          (l.map inactiveSub).length
          { filter := (activeSub g).filter, query := (activeSub g).query,
            active := false } = (l ++ [g]).map inactiveSub
      rw [set_append_last]
      simp [inactiveSub, activeSub]
    simp only [hunsub]
    have hlen2 : ((l ++ [g]).map inactiveSub).length = l.length + 1 := by
      simp
    rw [hlen2]
    simp [activeSub]

theorem filter_active_of_inactive (l : List Filter) :
    (l.map inactiveSub).filter (fun s => s.active) = [] := by
  rw [List.filter_map]
  have h : (fun s => Subscription.active s) ∘ inactiveSub =
      fun _ => false := by
    funext g
    rfl
  rw [h, List.filter_false, List.map_nil]

end Activity

section SubscriptionClaim

open Activity

/-- **C5.** After any sequence of filter changes, at most one activity
subscription is live; in particular `setFilter(A)` then `setFilter(B)`
(after any prior history `fs`) leaves exactly one active subscription — the
one for `B` — while the subscription opened for `A` has received its
unsubscribe call (it sits detached at index `fs.length`). -/
theorem at_most_one_live_subscription (fs : List Filter) (A B : Filter) :
    (applyFilters (fs ++ [A, B]) initialFeed).subs.filter
        (fun s => s.active) = [activeSub B] ∧
    (applyFilters (fs ++ [A, B]) initialFeed).subs.get? fs.length =
      some (inactiveSub A) ∧
    ∀ l : List Filter,
      ((applyFilters l initialFeed).subs.filter
          (fun s => s.active)).length ≤ 1 := by
  have hAB : fs ++ [A, B] = (fs ++ [A]) ++ [B] := by simp
  refine ⟨?_, ?_, ?_⟩
  · rw [hAB, applyFilters_shape]
    show ((fs ++ [A]).map inactiveSub ++ [activeSub B]).filter
        (fun s => s.active) = _
    rw [List.filter_append, filter_active_of_inactive]
    rfl
  · rw [hAB, applyFilters_shape]
    show ((fs ++ [A]).map inactiveSub ++ [activeSub B]).get?
        fs.length = _
    rw [List.get?_append]
    · rw [List.get?_map, get?_append_last fs A]
      rfl
    · simp
  · intro l
    rcases l.eq_nil_or_concat with rfl | ⟨l2, g, rfl⟩
    · simp [applyFilters, initialFeed]
    · rw [List.concat_eq_append, applyFilters_shape]
      show (((l2.map inactiveSub) ++ [activeSub g]).filter
          (fun s => s.active)).length ≤ 1
      rw [List.filter_append, filter_active_of_inactive]
      simp [activeSub]

end SubscriptionClaim

namespace Dashboard

/-- A report object as held in the dashboard's in-memory `REPORTS` array
(the fields assigned by the upload-form submit handler). -/
structure Report where
  id : String
  passportNumber : String
  subjectName : String
  nationality : String
  date : String
  classification : String
  summary : String
  content : String
  attachmentNames : List String
deriving DecidableEq, Repr

/-- `String(n).padStart(4, "0")`. -/
def pad4 (n : Nat) : String :=
  let s := toString n
  if s.length < 4 then String.mk (List.replicate (4 - s.length) '0') ++ s
  else s

/-- The id assigned by the CREATE branch of the upload-form submit handler:
`"RPT-" + year + "-" + String(REPORTS.length + 1).padStart(4, "0")`. -/
def newReportId (year : Nat) (reports : List Report) : String :=
  "RPT-" ++ toString year ++ "-" ++ pad4 (reports.length + 1)

/-- The values read from the upload form. -/
structure FormInput where
  passport : String
  subjectName : String
  nationality : String
  date : String
  classification : String
  summary : String
  content : String
  attachmentNames : List String
deriving DecidableEq, Repr

/-- The report object built by the CREATE branch (`content || "# Report: "
+ id + ...` uses JS truthiness: the empty string falls back to the
placeholder body). -/
def buildReport (year : Nat) (f : FormInput) (reports : List Report) :
    Report :=
  let id := newReportId year reports
  { id := id,
    passportNumber := f.passport.toUpper,
    subjectName := f.subjectName,
    nationality := f.nationality,
    date := f.date,
    classification := f.classification,
    summary := f.summary,
    content :=
      if f.content.isEmpty then
        "# Report: " ++ id ++ "\n\nNo detailed content provided."
      else f.content,
    attachmentNames := f.attachmentNames }

/-- The CREATE branch's effect on `REPORTS`: `REPORTS.unshift(report)`. -/
def createReport (year : Nat) (f : FormInput) (reports : List Report) :
    List Report :=
  buildReport year f reports :: reports

/-- The delete confirmation handler's effect on `REPORTS`:
`findIndex` on the id followed by `splice(idx, 1)` — remove the first
report with the given id, if any. -/
def deleteReportById (id : String) : List Report → List Report
  | [] => []
  | r :: rest => if r.id = id then rest else r :: deleteReportById id rest

/-- The outcome of the `StorageDB.getAllReports()` call raced against the
3000 ms `dbTimeout` at dashboard start: it either settles (resolves or
rejects) after `t` milliseconds, or never settles. -/
inductive RemoteOutcome where
  | settles (t : Nat) (result : Except String (List Report)) : RemoteOutcome
  | never : RemoteOutcome

/-- The 3000 ms bound of `dbTimeout`. -/
def DB_TIMEOUT_MS : Nat := 3000

/-- `Promise.race([StorageDB.getAllReports(), dbTimeout])`: whichever
settles first wins; if the remote call has not settled strictly before the
timer fires, the race rejects with the timeout error at 3000 ms.  Returns
the time at which the race settles and its result. -/
def raceWithTimeout (o : RemoteOutcome) :
    Nat × Except String (List Report) :=
  match o with
  | .never => (DB_TIMEOUT_MS, .error "DB timeout")
  | .settles t r =>
      if t < DB_TIMEOUT_MS then (t, r) else (DB_TIMEOUT_MS, .error "DB timeout")

/-- The dashboard bootstrap around the race: on a successful, non-empty
result the `REPORTS` array is cleared and refilled with the loaded list; on
an empty result it is left unchanged; on rejection (remote error or
timeout) the `catch` logs a warning (`console.error`) and `REPORTS` is left
unchanged.  Returns the resulting `REPORTS` list and whether the warning
was surfaced. -/
def bootstrapReports (prev : List Report) (o : RemoteOutcome) :
    List Report × Bool :=
  match (raceWithTimeout o).2 with
  | .error _ => (prev, true)
  | .ok saved => if saved.length > 0 then (saved, false) else (prev, false)

end Dashboard

section BootstrapClaim

open Dashboard

/-- **C6.** The dashboard's initial load always settles within the 3000 ms
budget (the caller is never hung indefinitely), and whenever the raced read
fails or times out, the in-memory report list is returned unchanged — the
previously cached list is kept, not replaced by an empty list — and the
warning is surfaced. -/
theorem loadAll_timeout_keeps_cache (prev : List Report)
    (o : RemoteOutcome) :
    (raceWithTimeout o).1 ≤ DB_TIMEOUT_MS ∧
    (∀ e, (raceWithTimeout o).2 = .error e →
      bootstrapReports prev o = (prev, true)) := by
  constructor
  · rcases o with ⟨t, r⟩ | _
    · rw [raceWithTimeout]
      by_cases ht : t < DB_TIMEOUT_MS
      · rw [if_pos ht]
        exact Nat.le_of_lt ht
      · rw [if_neg ht]
    · exact Nat.le_refl _
  · intro e he
    rw [bootstrapReports, he]

/-- A concrete previously cached report for the C6 witness. -/
def cachedReport : Dashboard.Report :=
  ⟨"RPT-2024-0001", "X1234567", "Jane Doe", "Utopia", "2024-06-01",
    "secret", "summary", "body", []⟩

/-- Witness for C6: with a remote call that never settles, the race settles
at the 3000 ms bound and the previously cached single-report list is kept,
with the warning surfaced. -/
theorem loadAll_timeout_keeps_cache_witness :
    (raceWithTimeout RemoteOutcome.never).1 ≤ DB_TIMEOUT_MS ∧
    bootstrapReports [cachedReport] RemoteOutcome.never =
      ([cachedReport], true) := by
  have h := loadAll_timeout_keeps_cache [cachedReport] RemoteOutcome.never
  exact ⟨h.1, h.2 "DB timeout" rfl⟩

end BootstrapClaim

section ReportIdClaim

open Dashboard

/-- A concrete filled-in upload form. -/
def exForm : FormInput :=
  ⟨"x1234567", "Jane Doe", "Utopia", "2024-06-01", "secret",
    "summary", "body", []⟩

/-- The `REPORTS` list after the action sequence: create, create, delete
the first-created report, create — all in year 2024 on an initially empty
list. -/
def reportsAfterTrace : List Dashboard.Report :=
  createReport 2024 exForm
    (deleteReportById "RPT-2024-0001"
      (createReport 2024 exForm (createReport 2024 exForm [])))

/-- **C7 (code bug).** The spec (and the repository README, which documents
`id` as "Unique report ID") requires every id assigned at creation to be
unique, also with respect to previously created and deleted reports.  The
CREATE branch computes the sequence number as `REPORTS.length + 1`, so after
create, create, delete-first, create the engine assigns `RPT-2024-0002`
twice and the in-memory list holds two distinct reports with the same id:
the code contradicts its own documentation. -/
theorem report_id_reused_after_delete :
    reportsAfterTrace.map Dashboard.Report.id =
      ["RPT-2024-0002", "RPT-2024-0002"] ∧
    ¬ (reportsAfterTrace.map Dashboard.Report.id).Nodup := by
  have h1 : reportsAfterTrace.map Dashboard.Report.id =
      ["RPT-2024-0002", "RPT-2024-0002"] := rfl
  refine ⟨h1, ?_⟩
  rw [h1]
  decide

end ReportIdClaim

namespace Overflow

/-- The IndexedDB environment `getBlobLocal` runs against: either
`indexedDB.open` fails (so `openLocalDB()` rejects and that rejection
propagates out of `getBlobLocal`), or the database opens with contents
`store` and a per-key read-error behaviour `readFails`. -/
inductive DbEnv where
  | openFail : DbEnv
  | openOk (store : String → Option String) (readFails : String → Bool) : DbEnv

/-- `getBlobLocal(key)`: `openLocalDB().then(...)` — an open failure
rejects; otherwise the `get` request resolves
`request.result ? request.result.dataUrl : null` on success and the
`onerror` handler resolves `null` (it does not reject). -/
def getBlobLocal (env : DbEnv) (key : String) : Except Unit (Option String) :=
  match env with
  | .openFail => .error ()
  | .openOk store readFails =>
      if readFails key then .ok none
      else .ok (store key)

/-- The value `getBlobLocal` resolves with once the database is open. -/
def getBlobLocalPure (store : String → Option String)
    (readFails : String → Bool) (key : String) : Option String :=
  if readFails key then none else store key

/-- The guard `att.dataUrl && att.dataUrl.indexOf("local:") === 0` of
`restoreFromFirestore`: the payload value is truthy and, as a string, has
`"local:"` as a prefix (which is what `indexOf(p) === 0` tests; a stored
document only ever carries a string or no value here). -/
def isLocalRef (h : PayloadHandle) : Bool :=
  truthy h &&
    (match h with
     | .str s => "local:".data.isPrefixOf s.data
     | _ => false)

/-- `dataUrl.replace("local:", "")` under the `indexOf === 0` guard: drop
the 6-character `"local:"` prefix (the first occurrence is the prefix). -/
def stripLocal (s : String) : String := s.drop 6

/-- The value written back into `att.dataUrl` after hydration (`null`
becomes an absent payload). -/
def optionToHandle : Option String → PayloadHandle
  | some s => .str s
  | none => .absent

/-- One attachment step of `restoreFromFirestore`: a `local:` reference is
resolved through `getBlobLocal` and the result (possibly `null`) assigned to
`att.dataUrl`; any other attachment is left untouched. -/
def restoreAttE (env : DbEnv) (a : Attachment) : Except Unit Attachment :=
  if isLocalRef a.dataUrl then
    (getBlobLocal env (stripLocal (handleStr a.dataUrl))).map
      fun v => { a with dataUrl := optionToHandle v }
  else .ok a

/-- The pure per-attachment hydration once the database is open. -/
def restoreAttPure (store : String → Option String)
    (readFails : String → Bool) (a : Attachment) : Attachment :=
  if isLocalRef a.dataUrl then
    { a with
      dataUrl := optionToHandle
        (getBlobLocalPure store readFails (stripLocal (handleStr a.dataUrl))) }
  else a

/-- `restoreFromFirestore(report)`: hydrate every attachment
(`Promise.all`) and return the report. -/
def restoreFromFirestore (env : DbEnv) (r : Report) : Except Unit Report :=
  (r.attachments.mapM (restoreAttE env)).map
    fun atts => { r with attachments := atts }

/-- `getReport(id)`: a missing document yields `null`; an existing one is
hydrated through `restoreFromFirestore`. -/
def getReport (env : DbEnv) (db : DB) (id : String) :
    Except Unit (Option Report) :=
  match db.docs id with
  | none => .ok none
  | some d => (restoreFromFirestore env d).map some

theorem restoreAttE_openOk (store : String → Option String)
    (rf : String → Bool) (a : Attachment) :
    restoreAttE (.openOk store rf) a = .ok (restoreAttPure store rf a) := by
  cases hl : isLocalRef a.dataUrl with
  | false => simp [restoreAttE, restoreAttPure, hl]
  | true =>
    cases hr : rf (stripLocal (handleStr a.dataUrl)) with
    | false =>
      simp [restoreAttE, restoreAttPure, getBlobLocal, getBlobLocalPure,
        hl, hr, Except.map]
    | true =>
      simp [restoreAttE, restoreAttPure, getBlobLocal, getBlobLocalPure,
        hl, hr, Except.map]

theorem mapM_ok_of_ok {α β : Type} (f : α → Except Unit β) (g : α → β)
    (hf : ∀ a, f a = .ok (g a)) (l : List α) :
    l.mapM f = .ok (l.map g) := by
  induction l with
  | nil => rfl
  | cons a rest ih =>
    rw [List.mapM_cons, hf a, ih]
    rfl

theorem restoreFromFirestore_openOk (store : String → Option String)
    (rf : String → Bool) (r : Report) :
    restoreFromFirestore (.openOk store rf) r =
      .ok { r with attachments := r.attachments.map (restoreAttPure store rf) } := by
  rw [restoreFromFirestore,
    mapM_ok_of_ok _ _ (restoreAttE_openOk store rf)]
  rfl

end Overflow

section HydrationClaims

open Overflow

/-- **C10 (counterexample).** The claim states that `getBlobLocal` resolves
for every key and never rejects.  The `get`-request error handler does
resolve `null`, but `getBlobLocal` begins with `openLocalDB().then(...)`
with no rejection handler: when opening the IndexedDB database itself fails,
the returned promise rejects. -/
theorem getBlobLocal_rejects_on_open_failure :
    getBlobLocal DbEnv.openFail "RPT-2024-0001_att_0" =
      Except.error () := rfl

/-- **C10 (amended).** Once the local database opens successfully,
`getBlobLocal` is total at its interface: for every key it resolves — with
the stored payload when the key is present and the read succeeds, and with
`null` both when the key is missing and when the underlying IndexedDB read
request errors.  (Only a failure of `openLocalDB()` itself makes the promise
reject.) -/
theorem getBlobLocal_total_once_open (store : String → Option String)
    (rf : String → Bool) (key : String) :
    (∃ v, getBlobLocal (.openOk store rf) key = .ok v) ∧
    (rf key = false → getBlobLocal (.openOk store rf) key = .ok (store key)) ∧
    (rf key = true → getBlobLocal (.openOk store rf) key = .ok none) := by
  refine ⟨?_, ?_, ?_⟩
  · by_cases hr : rf key
    · exact ⟨none, by rw [getBlobLocal, if_pos hr]⟩
    · exact ⟨store key, by rw [getBlobLocal, if_neg hr]⟩
  · intro h
    rw [getBlobLocal, h]
    rfl
  · intro h
    rw [getBlobLocal, h]
    rfl

/-- A concrete overflow-store content for the C10 witness. -/
def exBlobStore : String → Option String :=
  Overflow.update (fun _ => none) "RPT-2024-0001_att_0"
    (some "data:application/pdf;base64,AAAA")

/-- Witness for the amended C10: with the database open and no read errors,
a present key resolves to its payload and a missing key resolves to
`null`. -/
theorem getBlobLocal_total_once_open_witness :
    getBlobLocal (.openOk exBlobStore (fun _ => false)) "RPT-2024-0001_att_0" =
      .ok (some "data:application/pdf;base64,AAAA") ∧
    getBlobLocal (.openOk exBlobStore (fun _ => false)) "missing_key" =
      .ok none := by
  have h1 := (getBlobLocal_total_once_open exBlobStore (fun _ => false)
    "RPT-2024-0001_att_0").2.1 rfl
  have h2 := (getBlobLocal_total_once_open exBlobStore (fun _ => false)
    "missing_key").2.1 rfl
  rw [h1, h2]
  constructor
  · show Except.ok (exBlobStore "RPT-2024-0001_att_0") = _
    rfl
  · show Except.ok (exBlobStore "missing_key") = _
    rfl

/-- **C8.** With the local database reachable, `getReport(id)` always
resolves: a document that does not exist yields `null`; an existing
document is returned in full with every attachment hydrated independently —
and an attachment whose `local:` payload cannot be resolved (key absent on
this device, or the blob-tier read erroring) comes back with its payload
absent while keeping its `name` and `size`, rather than the whole load
aborting. -/
theorem getReport_degrades_per_attachment (store : String → Option String)
    (rf : String → Bool) (db : Overflow.DB) (id : String) :
    (∃ res, getReport (.openOk store rf) db id = .ok res) ∧
    (db.docs id = none → getReport (.openOk store rf) db id = .ok none) ∧
    (∀ d, db.docs id = some d →
      getReport (.openOk store rf) db id =
        .ok (some { d with
          attachments := d.attachments.map (restoreAttPure store rf) })) ∧
    (∀ a : Overflow.Attachment, isLocalRef a.dataUrl = true →
      getBlobLocalPure store rf (stripLocal (handleStr a.dataUrl)) = none →
      (restoreAttPure store rf a).dataUrl = .absent ∧
      (restoreAttPure store rf a).name = a.name ∧
      (restoreAttPure store rf a).size = a.size) := by
  refine ⟨?_, ?_, ?_, ?_⟩
  · rcases hdoc : db.docs id with _ | d
    · exact ⟨none, by rw [getReport, hdoc]⟩
    · refine ⟨some { d with
        attachments := d.attachments.map (restoreAttPure store rf) }, ?_⟩
      rw [getReport, hdoc]
      show Except.map some (restoreFromFirestore (.openOk store rf) d) = _
      rw [restoreFromFirestore_openOk]
      rfl
  · intro h
    rw [getReport, h]
  · intro d h
    rw [getReport, h]
    show Except.map some (restoreFromFirestore (.openOk store rf) d) = _
    rw [restoreFromFirestore_openOk]
    rfl
  · intro a hl hres
    rw [restoreAttPure, if_pos hl, hres]
    exact ⟨rfl, rfl, rfl⟩

/-- Witness for C8: hydrating the stored document `exOverflowDoc` on a
device whose overflow store is empty returns the report with the
attachment's payload absent; a missing document id yields `null`; and the
unresolvable attachment keeps its name and size. -/
theorem getReport_degrades_per_attachment_witness :
    getReport (.openOk (fun _ => none) (fun _ => false)) exOverflowDB
        "RPT-2024-0001" =
      .ok (some ⟨"RPT-2024-0001", "subject",
        [⟨"scan.pdf", "application/pdf", 800001, .absent⟩]⟩) ∧
    getReport (.openOk (fun _ => none) (fun _ => false)) exOverflowDB
        "RPT-9999-0001" = .ok none ∧
    (restoreAttPure (fun _ => none) (fun _ => false)
        ⟨"scan.pdf", "application/pdf", 800001,
          .str "local:RPT-2024-0001_att_0"⟩).dataUrl = .absent := by
  have h := getReport_degrades_per_attachment (fun _ => none)
    (fun _ => false) exOverflowDB "RPT-2024-0001"
  have hmiss := getReport_degrades_per_attachment (fun _ => none)
    (fun _ => false) exOverflowDB "RPT-9999-0001"
  refine ⟨?_, ?_, ?_⟩
  · have h3 := h.2.2.1 exOverflowDoc (by simp [exOverflowDB, Overflow.update])
    rw [h3]
    show Except.ok (some { exOverflowDoc with
      attachments := exOverflowDoc.attachments.map
        (restoreAttPure (fun _ => none) (fun _ => false)) }) = _
    have hatt : exOverflowDoc.attachments.map
        (restoreAttPure (fun _ => none) (fun _ => false)) =
        [⟨"scan.pdf", "application/pdf", 800001, .absent⟩] := by decide
    rw [hatt]
    rfl
  · exact hmiss.2.1 (by simp [exOverflowDB, Overflow.update])
  · exact (h.2.2.2 ⟨"scan.pdf", "application/pdf", 800001,
      .str "local:RPT-2024-0001_att_0"⟩ (by decide) rfl).1

end HydrationClaims
